import Mathlib

/-
Verification of the two plugin nodes defined in `nodes/image_interpolation.py`:
`LoadFilmModel` (model path resolution and loading) and `FilmInterpolation`
(recursive-binary frame interpolation driver).  The embedding models:

* filesystem paths as lists of components, and the filesystem itself as a
  boolean existence predicate on paths;
* the delegate library call `util.interpolate_recursively_from_memory` as an
  explicit function parameter yielding a finite list of frames (the source
  consumes it as a generator, in yield order);
* the host interrupt flag polled by
  `model_management.throw_exception_if_processing_interrupted` as a function
  from check index (the k-th check is the one performed right after the k-th
  yielded frame has been appended) to a boolean;
* the progress bar `comfy.utils.ProgressBar` as its observable total and the
  number of `update(1)` increments performed;
* raised Python exceptions as values of explicit error types.
-/

/-- Frames flowing through `do_interpolation`.  The delegate may yield either
a numpy array or a torch tensor; the source converts arrays with
`torch.from_numpy` and passes tensors through.  The payload is an abstract
identifier for the frame contents. -/
inductive Frame where
  | tensor (data : Nat)
  | array (data : Nat)
deriving DecidableEq

/-- Conversion performed per yielded frame in the source loop:
`torch.from_numpy(frame) if isinstance(frame, np.ndarray) else frame`. -/
def toTensor : Frame → Frame
  | .array d => .tensor d
  | .tensor d => .tensor d

/-- Errors raised inside `FilmInterpolation.do_interpolation`:
`cancelled` models the exception raised by
`throw_exception_if_processing_interrupted`; `catError` models the
`RuntimeError` raised by `torch.cat` on an empty tensor list (only reachable
when the delegate yields no frames at all). -/
inductive RunError where
  | cancelled
  | catError
deriving DecidableEq

/-- Observable outcome of the per-frame loop: the accumulated output list (or
the error that aborted it) together with the number of progress-bar
increments performed. -/
structure RunOutcome where
  result : Except RunError (List Frame)
  pbarValue : Nat

/-- The per-frame loop of `do_interpolation`.  For each frame yielded by the
delegate, in order: append the converted frame to the accumulator, poll the
host interrupt flag (raising the cancellation error if set, with the
accumulated frames discarded), then increment the progress bar by one.
`pbar` counts increments already performed, so the check following the k-th
appended frame polls `interrupt (pbar + 1)` with `pbar = k - 1`. -/
def processFrames (interrupt : Nat → Bool) : List Frame → List Frame → Nat → RunOutcome
  | [], acc, pbar => ⟨Except.ok acc, pbar⟩
  | f :: rest, acc, pbar =>
    if interrupt (pbar + 1) then ⟨Except.error RunError.cancelled, pbar⟩
    else processFrames interrupt rest (acc ++ [toTensor f]) (pbar + 1)

/-- Log events emitted by `do_interpolation`, in emission order. -/
inductive RunLog where
  | warnNoGpu
  | debugGpu
  | debugFrames (n : Nat)
  | debugReturn (n : Nat)
deriving DecidableEq

/-- The GPU preflight of `do_interpolation`: a warning when
`tf.config.list_physical_devices` reports no GPU, a debug line otherwise.
Purely a log emission. -/
def gpu_logs (gpuAvailable : Bool) : List RunLog :=
  if gpuAvailable then [RunLog.debugGpu] else [RunLog.warnNoGpu]

/-- Observable behaviour of one `do_interpolation` call: the returned batch or
raised error, the total the progress bar was pre-sized to (`none` when the
bar was never constructed), the number of increments performed, and the log
trace. -/
structure RunOutput where
  result : Except RunError (List Frame)
  pbarTotal : Option Nat
  pbarValue : Nat
  logs : List RunLog

/-- Embedding of `FilmInterpolation.do_interpolation`.  `gpuAvailable` stands
for the truth of `len(tf.config.list_physical_devices("GPU")) > 0`,
`film_model` for the composite of the loaded interpolator handle and
`util.interpolate_recursively_from_memory` (given the input frame list and
the `interpolate` depth it yields the delegate's frame sequence), and
`interrupt` for the host cancellation flag at each poll.  Mirrors the source:
empty-batch early return, GPU log, `num_frames = (n-1)*(2**interpolate - 1)`
progress-bar pre-size and debug log, the per-frame loop, and final
`torch.cat` assembly with its debug log. -/
def do_interpolation (gpuAvailable : Bool) (images : List Frame) (interpolate : Nat)
    (film_model : List Frame → Nat → List Frame) (interrupt : Nat → Bool) : RunOutput :=
  if images.length = 0 then ⟨Except.ok images, none, 0, []⟩
  else
    match processFrames interrupt (film_model images interpolate) [] 0 with
    | ⟨Except.ok out, v⟩ =>
      if out.isEmpty then
        ⟨Except.error RunError.catError,
          some ((images.length - 1) * (2 ^ interpolate - 1)), v,
          gpu_logs gpuAvailable ++
            [RunLog.debugFrames ((images.length - 1) * (2 ^ interpolate - 1))]⟩
      else
        ⟨Except.ok out,
          some ((images.length - 1) * (2 ^ interpolate - 1)), v,
          gpu_logs gpuAvailable ++
            [RunLog.debugFrames ((images.length - 1) * (2 ^ interpolate - 1)),
             RunLog.debugReturn out.length]⟩
    | ⟨Except.error e, v⟩ =>
      ⟨Except.error e,
        some ((images.length - 1) * (2 ^ interpolate - 1)), v,
        gpu_logs gpuAvailable ++
          [RunLog.debugFrames ((images.length - 1) * (2 ^ interpolate - 1))]⟩

/-- The single error raised locally by `LoadFilmModel.load_model`: the
`ValueError("Model ... does not exist")` raised when the resolved path does
not exist — the spec's `NotFoundError` class. -/
inductive LoadError where
  | notFound (path : List String)
deriving DecidableEq

/-- The opaque handle returned by `load_model`
(`interpolator.Interpolator(model_path.as_posix(), None)`), recording the
path the inference engine was instantiated on. -/
structure Handle where
  path : List String
deriving DecidableEq

/-- Observable events of one `load_model` call, in order. -/
inductive LoadEvent where
  | logError (path : List String)
  | logInfo (path : List String)
  | instantiate (path : List String)
deriving DecidableEq

/-- Path resolution step of `load_model`: the candidate directory is
`<models_dir>/FILM/<film_model>`; if it does not contain the top-level
`saved_model.pb` marker file, the candidate is replaced by its `saved_model`
subdirectory. -/
def resolve_model_path (fs : List String → Bool) (models_dir : List String)
    (film_model : String) : List String :=
  if fs ((models_dir ++ ["FILM", film_model]) ++ ["saved_model.pb"]) then
    models_dir ++ ["FILM", film_model]
  else
    (models_dir ++ ["FILM", film_model]) ++ ["saved_model"]

/-- Embedding of `LoadFilmModel.load_model`.  `fs` is the filesystem existence
predicate (`Path.exists`).  After resolution, if the resolved path does not
exist the loader logs an error and raises; otherwise it logs the resolved
path and instantiates the delegate inference engine on it. -/
def load_model (fs : List String → Bool) (models_dir : List String)
    (film_model : String) : Except LoadError Handle × List LoadEvent :=
  if fs (resolve_model_path fs models_dir film_model) then
    (Except.ok ⟨resolve_model_path fs models_dir film_model⟩,
     [LoadEvent.logInfo (resolve_model_path fs models_dir film_model),
      LoadEvent.instantiate (resolve_model_path fs models_dir film_model)])
  else
    (Except.error (LoadError.notFound (resolve_model_path fs models_dir film_model)),
     [LoadEvent.logError (resolve_model_path fs models_dir film_model)])

/-- Declared input schemas of the two nodes, as data consumed by the host. -/
inductive InputType where
  | choice (options : List String) (dflt : String)
  | intRange (dflt : Int) (lo : Int) (hi : Int)
  | image
  | filmModel
deriving DecidableEq

/-- Embedding of `LoadFilmModel.INPUT_TYPES`: the required `film_model`
argument is a choice among `["L1", "Style", "VGG"]` with default `"Style"`. -/
def LoadFilmModel.INPUT_TYPES : List (String × InputType) :=
  [(("film_model"), InputType.choice ["L1", "Style", "VGG"] ("Style"))]

/-- Embedding of `FilmInterpolation.INPUT_TYPES`: a required image batch, the
`interpolate` depth as an integer with default 2, min 1, max 50, and the
loaded model handle. -/
def FilmInterpolation.INPUT_TYPES : List (String × InputType) :=
  [(("images"), InputType.image),
   (("interpolate"), InputType.intRange 2 1 50),
   (("film_model"), InputType.filmModel)]

/-- Stub delegate yielding three distinguishable array frames, used by
concrete witnesses. -/
def stub_delegate : List Frame → Nat → List Frame :=
  fun _ _ => [Frame.array 10, Frame.array 11, Frame.array 12]

/-- Stub delegate yielding a single array frame, used by concrete
witnesses. -/
def stub_delegate1 : List Frame → Nat → List Frame :=
  fun _ _ => [Frame.array 7]

/-- Interrupt flag that is never raised. -/
def no_interrupt : Nat → Bool := fun _ => false

/-- Interrupt flag first observed raised at the k-th poll. -/
def interrupt_at (k : Nat) : Nat → Bool := fun j => decide (k ≤ j)

/-- Filesystem stub on which no path exists. -/
def fs_none : List String → Bool := fun _ => false

/-- Filesystem stub on which every path exists. -/
def fs_all : List String → Bool := fun _ => true

/-- Helper: a loop run that completes normally returns the converted frames
appended in yield order after the initial accumulator, and advances the
progress counter by exactly the number of frames processed. -/
theorem processFrames_ok (intr : Nat → Bool) (frames : List Frame) :
    ∀ (acc : List Frame) (pbar : Nat) (out : List Frame) (v : Nat),
      processFrames intr frames acc pbar = ⟨Except.ok out, v⟩ →
      out = acc ++ frames.map toTensor ∧ v = pbar + frames.length := by
  induction frames with
  | nil =>
    intro acc pbar out v h
    simp only [processFrames, RunOutcome.mk.injEq, Except.ok.injEq] at h
    simp [← h.1, ← h.2]
  | cons f rest ih =>
    intro acc pbar out v h
    simp only [processFrames] at h
    by_cases hc : intr (pbar + 1) = true
    · simp [hc] at h
    · rw [if_neg hc] at h
      obtain ⟨h1, h2⟩ := ih _ _ _ _ h
      constructor
      · simp [h1]
      · simp only [List.length_cons]
        omega

/-- Helper: when the interrupt flag is never raised, the loop completes
normally with all converted frames and one increment per frame. -/
theorem processFrames_no_interrupt (intr : Nat → Bool) (hni : ∀ j, intr j = false)
    (frames : List Frame) :
    ∀ (acc : List Frame) (pbar : Nat),
      processFrames intr frames acc pbar =
        ⟨Except.ok (acc ++ frames.map toTensor), pbar + frames.length⟩ := by
  induction frames with
  | nil => intro acc pbar; simp [processFrames]
  | cons f rest ih =>
    intro acc pbar
    simp only [processFrames, hni (pbar + 1), if_false, Bool.false_eq_true]
    rw [ih]
    congr 1
    · simp
    · simp only [List.length_cons]
      omega

/-- Helper: if the interrupt flag is first raised at the k-th poll and the
delegate yields at least k frames past the current position, the loop aborts
with the cancellation error after exactly k - 1 increments. -/
theorem processFrames_cancel (intr : Nat → Bool) (k : Nat) (hk : intr k = true)
    (frames : List Frame) :
    ∀ (acc : List Frame) (pbar : Nat),
      pbar < k → k ≤ pbar + frames.length →
      (∀ j, pbar < j → j < k → intr j = false) →
      processFrames intr frames acc pbar = ⟨Except.error RunError.cancelled, k - 1⟩ := by
  induction frames with
  | nil =>
    intro acc pbar h1 h2 _
    simp only [List.length_nil] at h2
    omega
  | cons f rest ih =>
    intro acc pbar h1 h2 h3
    by_cases hc : k = pbar + 1
    · subst hc
      simp [processFrames, hk]
    · have hfalse : intr (pbar + 1) = false := h3 _ (by omega) (by omega)
      simp only [processFrames, hfalse, if_false, Bool.false_eq_true]
      simp only [List.length_cons] at h2
      exact ih _ _ (by omega) (by omega) (fun j hj1 hj2 => h3 j (by omega) hj2)

/-- C3: for an empty input batch, `do_interpolation` returns the empty batch
unchanged with no progress bar constructed, zero progress increments and no
log emissions; the right-hand side mentions neither the delegate model nor
the interrupt flag, so the delegate is never invoked and no progress event
occurs. -/
theorem do_interpolation_empty (g : Bool) (d : Nat)
    (del : List Frame → Nat → List Frame) (intr : Nat → Bool) :
    do_interpolation g [] d del intr = ⟨Except.ok [], none, 0, []⟩ := rfl

/-- C2: for a batch of n ≥ 2 frames and depth d ∈ [1, 50], if the delegate
yields exactly (n-1) * (2^d - 1) frames and no cancellation occurs, the
returned batch is exactly the converted delegate sequence (no original input
frames re-inserted) and its length is (n-1) * (2^d - 1). -/
theorem do_interpolation_length (g : Bool) (images : List Frame) (d : Nat)
    (del : List Frame → Nat → List Frame) (intr : Nat → Bool)
    (hn : 2 ≤ images.length) (hd1 : 1 ≤ d) (hd2 : d ≤ 50)
    (hdel : (del images d).length = (images.length - 1) * (2 ^ d - 1))
    (hni : ∀ j, intr j = false) :
    (do_interpolation g images d del intr).result =
      Except.ok ((del images d).map toTensor) ∧
    ((del images d).map toTensor).length = (images.length - 1) * (2 ^ d - 1) := by
  have hne : ¬ images.length = 0 := by omega
  have hlen : ((del images d).map toTensor).length =
      (images.length - 1) * (2 ^ d - 1) := by simpa using hdel
  have hpow : 2 ≤ 2 ^ d := by
    calc 2 = 2 ^ 1 := (pow_one 2).symm
    _ ≤ 2 ^ d := Nat.pow_le_pow_right (by omega) hd1
  have hpos : 0 < (images.length - 1) * (2 ^ d - 1) :=
    Nat.mul_pos (by omega) (by omega)
  have hnonempty : ((del images d).map toTensor).isEmpty = false := by
    cases hl : (del images d).map toTensor with
    | nil => rw [hl] at hlen; simp at hlen; omega
    | cons a l => rfl
  refine ⟨?_, hlen⟩
  unfold do_interpolation
  rw [if_neg hne, processFrames_no_interrupt intr hni (del images d) [] 0]
  simp [hnonempty]

/-- C6: whenever `do_interpolation` on a non-empty batch returns normally, the
returned batch is exactly the delegate's yielded sequence in yield order,
each element converted to the host tensor representation, with no
resampling or reordering. -/
theorem do_interpolation_yield_order (g : Bool) (images : List Frame) (d : Nat)
    (del : List Frame → Nat → List Frame) (intr : Nat → Bool) (out : List Frame)
    (hne : images ≠ [])
    (hok : (do_interpolation g images d del intr).result = Except.ok out) :
    out = (del images d).map toTensor := by
  have hlen : ¬ images.length = 0 := by simpa using hne
  unfold do_interpolation at hok
  rw [if_neg hlen] at hok
  cases hpf : processFrames intr (del images d) [] 0 with
  | mk r v =>
    rw [hpf] at hok
    cases r with
    | ok o =>
      by_cases he : o.isEmpty
      · simp [he] at hok
      · simp only [he, if_false, Bool.false_eq_true, Except.ok.injEq] at hok
        obtain ⟨h1, _⟩ := processFrames_ok intr (del images d) [] 0 o v hpf
        rw [← hok, h1]
        simp
    | error e => simp at hok

/-- C5: on a non-empty batch the progress bar is pre-sized to
(n-1) * (2^depth - 1), and on a normal return the number of increments
performed equals the number of frames actually yielded by the delegate
(one increment per yielded frame, in yield order). -/
theorem do_interpolation_progress (g : Bool) (images : List Frame) (d : Nat)
    (del : List Frame → Nat → List Frame) (intr : Nat → Bool)
    (hne : images ≠ []) :
    (do_interpolation g images d del intr).pbarTotal =
      some ((images.length - 1) * (2 ^ d - 1)) ∧
    ∀ out, (do_interpolation g images d del intr).result = Except.ok out →
      (do_interpolation g images d del intr).pbarValue = (del images d).length := by
  have hlen : ¬ images.length = 0 := by simpa using hne
  unfold do_interpolation
  rw [if_neg hlen]
  cases hpf : processFrames intr (del images d) [] 0 with
  | mk r v =>
    cases r with
    | ok o =>
      obtain ⟨_, h2⟩ := processFrames_ok intr (del images d) [] 0 o v hpf
      by_cases he : o.isEmpty
      · simp [he]
      · simp only [he, if_false, Bool.false_eq_true]
        exact ⟨by simp, fun out _ => by simpa using h2⟩
    | error e => simp

/-- C4: on a non-empty batch, if the host cancellation flag is first observed
raised at the poll following the k-th yielded frame (1 ≤ k ≤ number of
yielded frames), the call fails with the cancellation error and returns no
output batch: the `result` field is an error, so every accumulated frame is
discarded. -/
theorem do_interpolation_cancelled (g : Bool) (images : List Frame) (d k : Nat)
    (del : List Frame → Nat → List Frame) (intr : Nat → Bool)
    (hne : images ≠ []) (hk1 : 1 ≤ k) (hk2 : k ≤ (del images d).length)
    (hbefore : ∀ j, 0 < j → j < k → intr j = false) (hat : intr k = true) :
    (do_interpolation g images d del intr).result = Except.error RunError.cancelled := by
  have hlen : ¬ images.length = 0 := by simpa using hne
  have hpf := processFrames_cancel intr k hat (del images d) [] 0
    (by omega) (by omega) (by simpa using hbefore)
  unfold do_interpolation
  rw [if_neg hlen, hpf]

/-- C8: under the same cancellation scenario as C4, at the moment the call
fails the progress bar has been incremented exactly k - 1 times: within each
iteration the interrupt poll happens after the frame is appended but before
the increment, so the frame at which cancellation is observed is never
counted. -/
theorem do_interpolation_cancel_progress (g : Bool) (images : List Frame) (d k : Nat)
    (del : List Frame → Nat → List Frame) (intr : Nat → Bool)
    (hne : images ≠ []) (hk1 : 1 ≤ k) (hk2 : k ≤ (del images d).length)
    (hbefore : ∀ j, 0 < j → j < k → intr j = false) (hat : intr k = true) :
    (do_interpolation g images d del intr).pbarValue = k - 1 := by
  have hlen : ¬ images.length = 0 := by simpa using hne
  have hpf := processFrames_cancel intr k hat (del images d) [] 0
    (by omega) (by omega) (by simpa using hbefore)
  unfold do_interpolation
  rw [if_neg hlen, hpf]

/-- C10: the GPU-availability preflight is purely informational: two calls
that differ only in whether a hardware accelerator was detected produce the
same result batch (or error), the same progress-bar total and the same
number of increments; only the emitted log line differs. -/
theorem do_interpolation_gpu_invariant (g1 g2 : Bool) (images : List Frame) (d : Nat)
    (del : List Frame → Nat → List Frame) (intr : Nat → Bool) :
    (do_interpolation g1 images d del intr).result =
      (do_interpolation g2 images d del intr).result ∧
    (do_interpolation g1 images d del intr).pbarTotal =
      (do_interpolation g2 images d del intr).pbarTotal ∧
    (do_interpolation g1 images d del intr).pbarValue =
      (do_interpolation g2 images d del intr).pbarValue := by
  unfold do_interpolation
  by_cases h : images.length = 0
  · simp [h]
  · rw [if_neg h, if_neg h]
    cases hpf : processFrames intr (del images d) [] 0 with
    | mk r v =>
      cases r with
      | ok o =>
        by_cases he : o.isEmpty
        · simp [he]
        · simp [he]
      | error e => simp

/-- C1: on a coherent filesystem (if the marker file exists its directory
exists), `load_model` fails iff neither the candidate directory with its
top-level `saved_model.pb` marker nor the `saved_model` fallback subdirectory
exists, the failure is the not-found error, and that is the only locally
raised error condition. -/
theorem load_model_notFound_iff (fs : List String → Bool) (models_dir : List String)
    (style : String)
    (hcoh : fs ((models_dir ++ ["FILM", style]) ++ ["saved_model.pb"]) = true →
      fs (models_dir ++ ["FILM", style]) = true) :
    ((∃ p, (load_model fs models_dir style).1 = Except.error (LoadError.notFound p)) ↔
      (fs ((models_dir ++ ["FILM", style]) ++ ["saved_model.pb"]) = false ∧
       fs ((models_dir ++ ["FILM", style]) ++ ["saved_model"]) = false)) ∧
    ∀ e, (load_model fs models_dir style).1 = Except.error e →
      ∃ p, e = LoadError.notFound p := by
  unfold load_model resolve_model_path
  simp only [List.append_assoc, List.cons_append, List.nil_append] at hcoh ⊢
  by_cases hm : fs (models_dir ++ ["FILM", style, "saved_model.pb"]) = true
  · simp [hm, hcoh hm]
  · rw [Bool.not_eq_true] at hm
    by_cases hf : fs (models_dir ++ ["FILM", style, "saved_model"]) = true
    · simp [hm, hf]
    · rw [Bool.not_eq_true] at hf
      simp [hm, hf]

/-- C7: the resolved path is the `saved_model` fallback subdirectory iff the
candidate directory lacks the top-level `saved_model.pb` marker file (and is
the candidate directory itself otherwise), and when the resolved path exists
the loader logs the resolved path before instantiating the delegate
inference engine on it. -/
theorem load_model_resolution (fs : List String → Bool) (models_dir : List String)
    (style : String)
    (hex : fs (resolve_model_path fs models_dir style) = true) :
    (resolve_model_path fs models_dir style =
        (models_dir ++ ["FILM", style]) ++ ["saved_model"] ↔
      fs ((models_dir ++ ["FILM", style]) ++ ["saved_model.pb"]) = false) ∧
    load_model fs models_dir style =
      (Except.ok ⟨resolve_model_path fs models_dir style⟩,
       [LoadEvent.logInfo (resolve_model_path fs models_dir style),
        LoadEvent.instantiate (resolve_model_path fs models_dir style)]) := by
  constructor
  · unfold resolve_model_path
    by_cases hm : fs ((models_dir ++ ["FILM", style]) ++ ["saved_model.pb"]) = true
    · rw [if_pos hm]
      simp only [hm, Bool.true_eq_false, iff_false]
      intro hcon
      have := congrArg List.length hcon
      simp at this
    · rw [Bool.not_eq_true] at hm
      simp [hm]
  · unfold load_model
    rw [if_pos hex]

/-- C9: the declared input schemas restrict the loader's `film_model` style
argument to exactly the closed three-element preset list with `Style` as a
member default, and the runner's `interpolate` depth argument to the integer
range [1, 50] with default 2; these are the declared interface contracts the
host enforces. -/
theorem input_schemas_restrict :
    (∃ opts dflt,
      List.lookup ("film_model") LoadFilmModel.INPUT_TYPES =
        some (InputType.choice opts dflt) ∧
      opts = ["L1", "Style", "VGG"] ∧ opts.length = 3 ∧ dflt ∈ opts) ∧
    List.lookup ("interpolate") FilmInterpolation.INPUT_TYPES =
      some (InputType.intRange 2 1 50) := by
  refine ⟨⟨["L1", "Style", "VGG"], ("Style"), rfl, rfl, rfl, by simp⟩, rfl⟩

/-- Witness for C1 at a concrete filesystem on which no path exists. -/
theorem load_model_notFound_iff_witness :
    ((∃ p, (load_model fs_none [] ("Style")).1 = Except.error (LoadError.notFound p)) ↔
      (fs_none (([] ++ ["FILM", "Style"]) ++ ["saved_model.pb"]) = false ∧
       fs_none (([] ++ ["FILM", "Style"]) ++ ["saved_model"]) = false)) ∧
    ∀ e, (load_model fs_none [] ("Style")).1 = Except.error e →
      ∃ p, e = LoadError.notFound p :=
  load_model_notFound_iff fs_none [] ("Style") (by intro h; simp [fs_none] at h)

/-- Witness for C7 at a concrete filesystem on which every path exists. -/
theorem load_model_resolution_witness :
    (resolve_model_path fs_all [] ("Style") =
        (([] ++ ["FILM", "Style"]) ++ ["saved_model"]) ↔
      fs_all (([] ++ ["FILM", "Style"]) ++ ["saved_model.pb"]) = false) ∧
    load_model fs_all [] ("Style") =
      (Except.ok ⟨resolve_model_path fs_all [] ("Style")⟩,
       [LoadEvent.logInfo (resolve_model_path fs_all [] ("Style")),
        LoadEvent.instantiate (resolve_model_path fs_all [] ("Style"))]) :=
  load_model_resolution fs_all [] ("Style") rfl

/-- Witness for C2: two input frames, depth 1, a stub delegate yielding
exactly (2-1) * (2^1 - 1) = 1 frame, no cancellation. -/
theorem do_interpolation_length_witness :
    (do_interpolation true [Frame.tensor 0, Frame.tensor 1] 1 stub_delegate1
        no_interrupt).result =
      Except.ok ((stub_delegate1 [Frame.tensor 0, Frame.tensor 1] 1).map toTensor) ∧
    ((stub_delegate1 [Frame.tensor 0, Frame.tensor 1] 1).map toTensor).length =
      ([Frame.tensor 0, Frame.tensor 1].length - 1) * (2 ^ 1 - 1) :=
  do_interpolation_length true [Frame.tensor 0, Frame.tensor 1] 1 stub_delegate1
    no_interrupt (by decide) (by decide) (by decide) (by decide) (fun _ => rfl)

/-- Witness for C4: a three-frame stub delegate with the cancellation flag
first observed at the poll following the first yielded frame. -/
theorem do_interpolation_cancelled_witness :
    (do_interpolation true [Frame.tensor 0, Frame.tensor 1] 2 stub_delegate
        (interrupt_at 1)).result = Except.error RunError.cancelled :=
  do_interpolation_cancelled true [Frame.tensor 0, Frame.tensor 1] 2 1 stub_delegate
    (interrupt_at 1) (by decide) (by decide) (by decide)
    (by intro j h1 h2; exact absurd h2 (by omega)) (by decide)

/-- Witness for C5: two input frames, depth 1, a stub delegate yielding one
frame, no cancellation. -/
theorem do_interpolation_progress_witness :
    (do_interpolation true [Frame.tensor 0, Frame.tensor 1] 1 stub_delegate1
        no_interrupt).pbarTotal =
      some (([Frame.tensor 0, Frame.tensor 1].length - 1) * (2 ^ 1 - 1)) ∧
    ∀ out, (do_interpolation true [Frame.tensor 0, Frame.tensor 1] 1 stub_delegate1
        no_interrupt).result = Except.ok out →
      (do_interpolation true [Frame.tensor 0, Frame.tensor 1] 1 stub_delegate1
        no_interrupt).pbarValue = (stub_delegate1 [Frame.tensor 0, Frame.tensor 1] 1).length :=
  do_interpolation_progress true [Frame.tensor 0, Frame.tensor 1] 1 stub_delegate1
    no_interrupt (by decide)

/-- Witness for C6: a one-frame batch with a stub delegate yielding a single
array frame; the normal return is exactly that frame converted. -/
theorem do_interpolation_yield_order_witness :
    [Frame.tensor 7] = (stub_delegate1 [Frame.tensor 0] 1).map toTensor :=
  do_interpolation_yield_order true [Frame.tensor 0] 1 stub_delegate1 no_interrupt
    [Frame.tensor 7] (by decide) rfl

/-- Witness for C8: the cancellation flag is first observed at the poll
following the second yielded frame, so exactly one increment was performed. -/
theorem do_interpolation_cancel_progress_witness :
    (do_interpolation true [Frame.tensor 0, Frame.tensor 1] 2 stub_delegate
        (interrupt_at 2)).pbarValue = 2 - 1 :=
  do_interpolation_cancel_progress true [Frame.tensor 0, Frame.tensor 1] 2 2 stub_delegate
    (interrupt_at 2) (by decide) (by decide) (by decide)
    (by intro j h1 h2; simp only [interrupt_at, decide_eq_false_iff_not]; omega) (by decide)
